import Mathlib

/-!
Verification development for the `web-agent-sdk` repository.

This file shallowly embeds the core of the repository in Lean 4 and proves
properties of the embedding.  The authoritative sources are:

  * `src/actions/executor.ts`  — `ActionExecutor` (dispatch, click, type,
    select, ... handlers);
  * `src/dom/analyzer.ts`      — `DOMAnalyzer` (interactive-element discovery,
    the index → handle cache);
  * `src/agent/langchain-agent.ts` — `LangChainWebAgent` (loop guard,
    `executeAction`/`executeActions`, `exportState`/`importState`, the
    Planner-Actor `execute` loop, `parseActionsFromResponse`).

Modelling conventions:

  * The browser DOM is external: an executor call receives an environment
    (`ExecEnv`) giving the current index → element table and a `domFault`
    field; `domFault = some msg` models the situation where the DOM
    operations performed after the element has been resolved throw an
    exception with message `msg` (TypeScript's `try/catch` semantics).
  * Asynchronous TypeScript methods are modelled as pure functions; `await`
    points do not matter for any proved property (the loop is sequential).
  * JavaScript numbers appearing as element indices and durations are
    modelled as `Int`; JSON numeric literals are modelled as integers.
  * Events dispatched on an element (`dispatchEvent`, `focus()`, `click()`,
    `scrollIntoView`) are recorded in an ordered trace list.
-/

/-- `ActionType` from `src/actions/executor.ts` (the string union). -/
inductive ActionType where
  | click
  | type
  | clear
  | select
  | scroll
  | hover
  | focus
  | wait
  | navigate
  | goBack
  | goForward
  | refresh
  | done
deriving DecidableEq, Repr

/-- The string each `ActionType` member denotes in the source. -/
def ActionType.str : ActionType → String
  | .click => "click"
  | .type => "type"
  | .clear => "clear"
  | .select => "select"
  | .scroll => "scroll"
  | .hover => "hover"
  | .focus => "focus"
  | .wait => "wait"
  | .navigate => "navigate"
  | .goBack => "goBack"
  | .goForward => "goForward"
  | .refresh => "refresh"
  | .done => "done"

/-- Scroll directions accepted by `ActionParams['scroll']`. -/
inductive ScrollDirection where
  | up
  | down
  | left
  | right
deriving DecidableEq, Repr

def ScrollDirection.str : ScrollDirection → String
  | .up => "up"
  | .down => "down"
  | .left => "left"
  | .right => "right"

/-- `Partial<InteractiveElement>` payload attached to some results
(only the fields the executor actually fills in). -/
structure ElementInfo where
  index : Option Int := none
  text : Option String := none
deriving DecidableEq, Repr

/-- `ActionResult` from `src/actions/executor.ts`. -/
structure ActionResult where
  success : Bool
  action : ActionType
  message : String
  error : Option String := none
  elementInfo : Option ElementInfo := none
deriving DecidableEq, Repr

/-- One `<option>` of a `<select>` element (`value` and visible `text`). -/
structure SelectOption where
  value : String
  text : String
deriving DecidableEq, Repr

/-- A live DOM element handle, with the attributes read by the executor and
the analyzer.  `eid` is node identity (two handles are the same DOM node
iff their `eid`s agree).  `width`/`height` come from
`getBoundingClientRect()`, `visibility`/`display`/`opacity` from
`getComputedStyle`. -/
structure Elem where
  eid : Nat
  tagName : String := "div"
  inputType : Option String := none
  value : String := ""
  checked : Bool := false
  options : List SelectOption := []
  textContent : String := ""
  ariaLabel : Option String := none
  placeholder : String := ""
  title : Option String := none
  roleAttr : Option String := none
  name : String := ""
  idAttr : String := ""
  className : String := ""
  href : String := ""
  disabled : Bool := false
  width : Int := 0
  height : Int := 0
  visibility : String := "visible"
  display : String := "block"
  opacity : String := "1"
deriving DecidableEq, Repr

/-- Events / DOM calls the executor performs on an element, in order. -/
inductive DomEvent where
  | scrollIntoViewCall
  | focusCall
  | clickCall
  | change
  | input
  | keydown (key : String)
  | keyup (key : String)
  | mousedown
  | mouseup
  | mouseclick
  | mouseenter
  | mouseover
deriving DecidableEq, Repr

/-- Environment an executor call runs against: the analyzer's current
index → handle table (`getElement`) and an optional fault.
`domFault = some m` means the DOM operations performed once the element has
been resolved (scrolling, focusing, dispatching, window calls) throw an
exception whose message is `m`. -/
structure ExecEnv where
  getElement : Int → Option Elem
  domFault : Option String := none

/-- The effect an executor handler had on the page: the (possibly updated)
target element and the ordered trace of events dispatched on it. -/
structure ExecEffect where
  elem : Option Elem := none
  events : List DomEvent := []
deriving DecidableEq, Repr

/-- One invocation of `ActionExecutor.execute(kind, params)`: the kind
together with the parameters the source reads for that kind. -/
inductive ActionInvocation where
  | click (index : Int)
  | type (index : Int) (text : String) (clear : Option Bool)
  | clear (index : Int)
  | select (index : Int) (value : String)
  | scroll (direction : ScrollDirection) (amount : Option Int)
  | hover (index : Int)
  | focus (index : Int)
  | wait (ms : Int)
  | navigate (url : String)
  | goBack
  | goForward
  | refresh
deriving DecidableEq, Repr

/-- The `ActionType` an invocation dispatches on. -/
def ActionInvocation.kind : ActionInvocation → ActionType
  | .click _ => .click
  | .type _ _ _ => .type
  | .clear _ => .clear
  | .select _ _ => .select
  | .scroll _ _ => .scroll
  | .hover _ => .hover
  | .focus _ => .focus
  | .wait _ => .wait
  | .navigate _ => .navigate
  | .goBack => .goBack
  | .goForward => .goForward
  | .refresh => .refresh

/-! JavaScript string primitives, implemented over the character list so
that they evaluate inside the kernel.  Like their JS counterparts on the
inputs this codebase feeds them, `toLowerCase`/`toUpperCase` act
ASCII-wise per character. -/

/-- JavaScript `s.toLowerCase()`. -/
def strToLower (s : String) : String := String.mk (s.data.map Char.toLower)

/-- JavaScript `s.toUpperCase()`. -/
def strToUpper (s : String) : String := String.mk (s.data.map Char.toUpper)

/-- JavaScript `s.startsWith(pre)`. -/
def strStartsWith (s pre : String) : Bool := pre.data.isPrefixOf s.data

/-- JavaScript `s.trim()`. -/
def strTrim (s : String) : String :=
  String.mk (((s.data.dropWhile Char.isWhitespace).reverse.dropWhile
    Char.isWhitespace).reverse)

/-- Substring occurrence on character lists. -/
def listIncludes (needle : List Char) : List Char → Bool
  | [] => needle.isEmpty
  | c :: rest => needle.isPrefixOf (c :: rest) || listIncludes needle rest

/-- JavaScript `haystack.includes(needle)`. -/
def strIncludes (haystack needle : String) : Bool :=
  listIncludes needle.data haystack.data

namespace ActionExecutor

/-- JavaScript `text.substring(0, n)` on our strings. -/
def jsTake (s : String) (n : Nat) : String :=
  String.mk (s.data.take n)

/-- `ActionExecutor.click` (executor.ts lines 96-125).  Resolves the handle;
if missing, a failed "not found" result.  Otherwise scrolls into view,
focuses, clicks, and — only for tags outside `input/button/select/textarea`
— additionally dispatches a synthetic mousedown/mouseup/click sequence. -/
def click (env : ExecEnv) (index : Int) :
    Except String (ExecEffect × ActionResult) :=
  match env.getElement index with
  | none =>
      .ok ({}, { success := false, action := .click,
                 message := s!"Element [{index}] not found" })
  | some element =>
      match env.domFault with
      | some m => .error m
      | none =>
          let tag := strToLower element.tagName
          let synthetic :=
            if tag = "input" ∨ tag = "button" ∨ tag = "select" ∨ tag = "textarea"
            then ([] : List DomEvent)
            else [DomEvent.mousedown, DomEvent.mouseup, DomEvent.mouseclick]
          .ok ({ elem := some element,
                 events := [DomEvent.scrollIntoViewCall, DomEvent.focusCall,
                            DomEvent.clickCall] ++ synthetic },
               { success := true, action := .click,
                 message := s!"Clicked element [{index}]",
                 elementInfo := some { index := some index,
                                       text := some (jsTake (strTrim element.textContent) 50) } })

/-- The truthy token set for boolean controls (executor.ts line 143). -/
def truthyTokens : List String := ["true", "yes", "on", "1", "checked"]

/-- The input subtypes whose value is assigned directly
(executor.ts line 139). -/
def directValueTypes : List String :=
  ["date", "time", "datetime-local", "month", "week", "color", "range", "hidden"]

/-- `ActionExecutor.type` (executor.ts lines 127-201).  Branches on the
declared input subtype: checkbox/radio set `checked` from the truthy token
set and fire change+input; direct-value subtypes assign the value in one
operation and fire input+change; general text controls optionally clear,
assign or append the text, fire input+change, then a trailing
key-down/up pair for the last character. -/
def type (env : ExecEnv) (index : Int) (text : String) (clear : Bool := true) :
    Except String (ExecEffect × ActionResult) :=
  match env.getElement index with
  | none =>
      .ok ({}, { success := false, action := .type,
                 message := s!"Element [{index}] not found" })
  | some element =>
      match env.domFault with
      | some m => .error m
      | none =>
          let pre := [DomEvent.scrollIntoViewCall, DomEvent.focusCall]
          let inputType := element.inputType.getD "text"
          if inputType = "checkbox" ∨ inputType = "radio" then
            let shouldCheck := truthyTokens.contains (strToLower text)
            .ok ({ elem := some { element with checked := shouldCheck },
                   events := pre ++ [DomEvent.change, DomEvent.input] },
                 { success := true, action := .type,
                   message :=
                     (if shouldCheck then "Checked" else "Unchecked") ++
                       s!" {inputType} element [{index}]",
                   elementInfo := some { index := some index } })
          else if directValueTypes.contains inputType then
            .ok ({ elem := some { element with value := text },
                   events := pre ++ [DomEvent.input, DomEvent.change] },
                 { success := true, action := .type,
                   message := s!"Set value \"{text}\" for {inputType} element [{index}]",
                   elementInfo := some { index := some index } })
          else
            let clearEvents := if clear then [DomEvent.input] else []
            let newValue := if clear then text else element.value ++ text
            let keyEvents :=
              if text.length > 0 then
                let lastChar := String.mk [text.data.getLast!]
                [DomEvent.keydown lastChar, DomEvent.keyup lastChar]
              else []
            .ok ({ elem := some { element with value := newValue },
                   events := pre ++ clearEvents ++
                             [DomEvent.input, DomEvent.change] ++ keyEvents },
                 { success := true, action := .type,
                   message :=
                     s!"Typed \"{jsTake text 30}" ++
                       (if text.length > 30 then "..." else "") ++
                       s!"\" into element [{index}]",
                   elementInfo := some { index := some index } })

/-- `ActionExecutor.clear` (executor.ts lines 203-215). -/
def clearAction (env : ExecEnv) (index : Int) :
    Except String (ExecEffect × ActionResult) :=
  match env.getElement index with
  | none =>
      .ok ({}, { success := false, action := .clear,
                 message := s!"Element [{index}] not found" })
  | some element =>
      match env.domFault with
      | some m => .error m
      | none =>
          .ok ({ elem := some { element with value := "" },
                 events := [DomEvent.focusCall, DomEvent.input, DomEvent.change] },
               { success := true, action := .clear,
                 message := s!"Cleared element [{index}]" })

/-- The option-matching cascade of `ActionExecutor.select`
(executor.ts lines 224-245): exact value, case-insensitive value, exact
label, case-insensitive label, substring-of-label — first match wins. -/
def findMatchedOption (options : List SelectOption) (value : String) :
    Option SelectOption :=
  match options.find? (fun opt => opt.value = value) with
  | some o => some o
  | none =>
  match options.find? (fun opt => strToLower opt.value = strToLower value) with
  | some o => some o
  | none =>
  match options.find? (fun opt => opt.text = value) with
  | some o => some o
  | none =>
  match options.find? (fun opt => strToLower opt.text = strToLower value) with
  | some o => some o
  | none =>
  options.find? (fun opt => strIncludes (strToLower opt.text) (strToLower value))

/-- `ActionExecutor.select` (executor.ts lines 217-264). -/
def select (env : ExecEnv) (index : Int) (value : String) :
    Except String (ExecEffect × ActionResult) :=
  match env.getElement index with
  | none =>
      .ok ({}, { success := false, action := .select,
                 message := s!"Element [{index}] not found" })
  | some element =>
      match env.domFault with
      | some m => .error m
      | none =>
          match findMatchedOption element.options value with
          | some matchedOption =>
              .ok ({ elem := some { element with value := matchedOption.value },
                     events := [DomEvent.change, DomEvent.input] },
                   { success := true, action := .select,
                     message :=
                       s!"Selected \"{matchedOption.text}\" (value: {matchedOption.value}) in element [{index}]" })
          | none =>
              .ok ({ elem := some element, events := [] },
                   { success := false, action := .select,
                     message :=
                       s!"Option \"{value}\" not found in element [{index}]. Available: " ++
                         String.intercalate ", " (element.options.map (·.text)) })

/-- `ActionExecutor.scroll` (executor.ts lines 266-285); window scroll,
always succeeds.  `amount` defaults to 300. -/
def scroll (env : ExecEnv) (direction : ScrollDirection) (amount : Int := 300) :
    Except String (ExecEffect × ActionResult) :=
  match env.domFault with
  | some m => .error m
  | none =>
      .ok ({}, { success := true, action := .scroll,
                 message := s!"Scrolled {direction.str} by {amount}px" })

/-- `ActionExecutor.hover` (executor.ts lines 287-297). -/
def hover (env : ExecEnv) (index : Int) :
    Except String (ExecEffect × ActionResult) :=
  match env.getElement index with
  | none =>
      .ok ({}, { success := false, action := .hover,
                 message := s!"Element [{index}] not found" })
  | some element =>
      match env.domFault with
      | some m => .error m
      | none =>
          .ok ({ elem := some element,
                 events := [DomEvent.mouseenter, DomEvent.mouseover] },
               { success := true, action := .hover,
                 message := s!"Hovered over element [{index}]" })

/-- `ActionExecutor.focus` (executor.ts lines 299-307). -/
def focusAction (env : ExecEnv) (index : Int) :
    Except String (ExecEffect × ActionResult) :=
  match env.getElement index with
  | none =>
      .ok ({}, { success := false, action := .focus,
                 message := s!"Element [{index}] not found" })
  | some element =>
      match env.domFault with
      | some m => .error m
      | none =>
          .ok ({ elem := some element, events := [DomEvent.focusCall] },
               { success := true, action := .focus,
                 message := s!"Focused element [{index}]" })

/-- `ActionExecutor.wait` (executor.ts lines 309-312): pure delay. -/
def wait (ms : Int) : Except String (ExecEffect × ActionResult) :=
  .ok ({}, { success := true, action := .wait, message := s!"Waited {ms}ms" })

/-- `ActionExecutor.navigate` / `goBack` / `goForward` / `refresh`
(executor.ts lines 314-332): browser navigation primitives, reported
success regardless. -/
def navigate (env : ExecEnv) (url : String) :
    Except String (ExecEffect × ActionResult) :=
  match env.domFault with
  | some m => .error m
  | none =>
      .ok ({}, { success := true, action := .navigate,
                 message := s!"Navigating to {url}" })

def goBack (env : ExecEnv) : Except String (ExecEffect × ActionResult) :=
  match env.domFault with
  | some m => .error m
  | none =>
      .ok ({}, { success := true, action := .goBack, message := "Navigated back" })

def goForward (env : ExecEnv) : Except String (ExecEffect × ActionResult) :=
  match env.domFault with
  | some m => .error m
  | none =>
      .ok ({}, { success := true, action := .goForward, message := "Navigated forward" })

def refresh (env : ExecEnv) : Except String (ExecEffect × ActionResult) :=
  match env.domFault with
  | some m => .error m
  | none =>
      .ok ({}, { success := true, action := .refresh, message := "Page refreshed" })

/-- The `switch` body of `ActionExecutor.execute` (executor.ts lines 54-85),
before the surrounding `try/catch`: each case delegates to its handler and
may throw (`Except.error`). -/
def run (env : ExecEnv) : ActionInvocation → Except String (ExecEffect × ActionResult)
  | .click index => click env index
  | .type index text clearFlag => type env index text (clearFlag.getD true)
  | .clear index => clearAction env index
  | .select index value => select env index value
  | .scroll direction amount => scroll env direction (amount.getD 300)
  | .hover index => hover env index
  | .focus index => focusAction env index
  | .wait ms => wait ms
  | .navigate url => navigate env url
  | .goBack => goBack env
  | .goForward => goForward env
  | .refresh => refresh env

/-- `ActionExecutor.execute` (executor.ts lines 50-94): the `try/catch`
wrapper.  Any exception thrown inside the switch is caught and converted
to a failed `ActionResult` carrying the underlying error message — the
method itself never throws (its return type here is a plain pair). -/
def execute (env : ExecEnv) (inv : ActionInvocation) : ExecEffect × ActionResult :=
  match run env inv with
  | .ok out => out
  | .error e =>
      ({}, { success := false, action := inv.kind,
             message := "Action failed: " ++ inv.kind.str,
             error := some e })

end ActionExecutor

namespace DOMAnalyzer

/-- `value || undefined` on a string attribute. -/
def strOpt (s : String) : Option String := if s = "" then none else some s

/-- The visibility test of `findInteractiveElements`
(analyzer.ts lines 221-229): non-zero box, not CSS-hidden, not display:none,
non-zero opacity. -/
def isVisible (el : Elem) : Bool :=
  el.width > 0 && el.height > 0 && el.visibility ≠ "hidden" &&
    el.display ≠ "none" && el.opacity ≠ "0"

/-- `DOMAnalyzer.getElementType` (analyzer.ts lines 259-269). -/
def getElementType (el : Elem) : String :=
  let tag := strToLower el.tagName
  if tag = "input" then s!"input[" ++ el.inputType.getD "" ++ "]"
  else if tag = "a" then "link"
  else if tag = "button" then "button"
  else if tag = "select" then "dropdown"
  else if tag = "textarea" then "textarea"
  else (el.roleAttr.getD tag)

/-- `DOMAnalyzer.inferRole` (analyzer.ts lines 271-285). -/
def inferRole (el : Elem) : String :=
  let tag := strToLower el.tagName
  if tag = "a" then "link"
  else if tag = "button" then "button"
  else if tag = "input" then
    let ty := el.inputType.getD ""
    if ty = "submit" ∨ ty = "button" then "button"
    else if ty = "checkbox" then "checkbox"
    else if ty = "radio" then "radio"
    else "textbox"
  else if tag = "select" then "combobox"
  else if tag = "textarea" then "textbox"
  else "generic"

/-- `DOMAnalyzer.getElementText` (analyzer.ts lines 287-309): aria-label,
then trimmed inner text under 100 chars, then value, placeholder, title,
falling back to the lowercased tag name. -/
def getElementText (el : Elem) : String :=
  match el.ariaLabel with
  | some l => l
  | none =>
      let text := strTrim el.textContent
      if text ≠ "" ∧ text.length < 100 then text
      else if el.value ≠ "" then el.value
      else if el.placeholder ≠ "" then el.placeholder
      else match el.title with
           | some t => t
           | none => strToLower el.tagName

/-- The `InteractiveElement` record (analyzer.ts lines 6-25), without the
two tree-locator fields (`xpath`, `selector`), which depend on the ancestor
chain and are outside this element-local model. -/
structure InteractiveElement where
  index : Nat
  tagName : String
  type : String
  role : String
  text : String
  placeholder : String
  ariaLabel : Option String
  name : Option String
  idAttr : Option String
  className : Option String
  href : Option String
  value : Option String
  checked : Bool
  isVisible : Bool
  isEnabled : Bool
deriving DecidableEq, Repr

/-- How one surviving node is turned into the record pushed onto
`elements` (analyzer.ts lines 234-253). -/
def mkInteractiveElement (index : Nat) (el : Elem) : InteractiveElement where
  index := index
  tagName := strToLower el.tagName
  type := getElementType el
  role := el.roleAttr.getD (inferRole el)
  text := getElementText el
  placeholder := el.placeholder
  ariaLabel := el.ariaLabel
  name := strOpt el.name
  idAttr := strOpt el.idAttr
  className := strOpt el.className
  href := strOpt el.href
  value := strOpt el.value
  checked := el.checked
  isVisible := true
  isEnabled := !el.disabled

/-- Accumulator for the `forEach` in `findInteractiveElements`:
the `seen` identity set, the `elements` array and the index → handle
`elementCache` (represented positionally: index `i` maps to entry `i`). -/
structure DiscoveryAcc where
  seen : List Nat := []
  elements : List InteractiveElement := []
  cache : List Elem := []

/-- One `forEach` iteration of `findInteractiveElements`
(analyzer.ts lines 216-254): skip already-seen nodes, skip invisible
nodes, otherwise assign index `elements.length`, record the handle in the
cache and push the built record. -/
def discoverStep (acc : DiscoveryAcc) (el : Elem) : DiscoveryAcc :=
  if acc.seen.contains el.eid then acc
  else
    let acc := { acc with seen := acc.seen ++ [el.eid] }
    if !isVisible el then acc
    else
      let index := acc.elements.length
      { acc with
        elements := acc.elements ++ [mkInteractiveElement index el],
        cache := acc.cache ++ [el] }

/-- `DOMAnalyzer.findInteractiveElements` (analyzer.ts lines 211-257).
`dom` is the `querySelectorAll(INTERACTIVE_SELECTORS)` result in document
order; `oldCache` is the previous `elementCache`, discarded by the initial
`this.elementCache.clear()`. -/
def findInteractiveElements (oldCache : List Elem) (dom : List Elem) :
    List InteractiveElement × List Elem :=
  let _ := oldCache
  let acc := dom.foldl discoverStep {}
  (acc.elements, acc.cache)

/-- `DOMAnalyzer.getElement` (analyzer.ts lines 135-137): the cache entry
at `index`, or `null`. -/
def getElement (cache : List Elem) (index : Nat) : Option Elem :=
  cache.get? index

/-- First-occurrence de-duplication by node identity (the `seen` set). -/
def dedupByEid (seen : List Nat) : List Elem → List Elem
  | [] => []
  | el :: rest =>
      if seen.contains el.eid then dedupByEid seen rest
      else el :: dedupByEid (seen ++ [el.eid]) rest

/-- The `elements` array built from a cache segment whose first entry has
index `i`: entry `k` is the record for cache entry `k` at index `i + k`. -/
def buildElementsFrom (i : Nat) : List Elem → List InteractiveElement
  | [] => []
  | el :: rest => mkInteractiveElement i el :: buildElementsFrom (i + 1) rest

end DOMAnalyzer

/-- `WebAction` — the discriminated union produced by the Zod schemas in
`src/agent/langchain-agent.ts` (lines 15-95).  Each variant carries its
parameters plus the free-text `reasoning` field.  (The schema restricts
scroll to up/down; the executor accepts all four directions, so the field
reuses `ScrollDirection`.) -/
inductive WebAction where
  | click (index : Int) (reasoning : String)
  | type (index : Int) (text : String) (reasoning : String)
  | select (index : Int) (value : String) (reasoning : String)
  | scroll (direction : ScrollDirection) (reasoning : String)
  | wait (ms : Int) (reasoning : String)
  | done (reasoning : String)
deriving DecidableEq, Repr

/-- The `action` discriminator of a `WebAction`. -/
def WebAction.kind : WebAction → ActionType
  | .click _ _ => .click
  | .type _ _ _ => .type
  | .select _ _ _ => .select
  | .scroll _ _ => .scroll
  | .wait _ _ => .wait
  | .done _ => .done

/-- The `reasoning` field of a `WebAction`. -/
def WebAction.reasoning : WebAction → String
  | .click _ r => r
  | .type _ _ r => r
  | .select _ _ r => r
  | .scroll _ r => r
  | .wait _ r => r
  | .done r => r

/-- `{ ...action, reasoning: '' }` (langchain-agent.ts lines 282-283):
the action with its rationale blanked, so that comparing two cleaned
actions compares kind and all parameters while ignoring the rationale. -/
def cleanAction : WebAction → WebAction
  | .click i _ => .click i ""
  | .type i t _ => .type i t ""
  | .select i v _ => .select i v ""
  | .scroll d _ => .scroll d ""
  | .wait ms _ => .wait ms ""
  | .done _ => .done ""

/-- `LangChainWebAgent`'s mutable per-instance state: the `history` and
`results` logs and the remembered `lastAction` used by the loop guard
(langchain-agent.ts lines 213-215). -/
structure AgentState where
  history : List String
  results : List ActionResult
  lastAction : Option WebAction := none
deriving DecidableEq, Repr

/-- The loop-guard condition of `executeAction` (langchain-agent.ts lines
281-289): a previous action exists, the new action is neither scroll nor
wait, and the two cleaned actions are structurally equal. -/
def loopGuardTriggers (lastAction : Option WebAction) (action : WebAction) : Bool :=
  match lastAction with
  | none => false
  | some last =>
      action.kind ≠ ActionType.scroll && action.kind ≠ ActionType.wait &&
        cleanAction action = cleanAction last

/-- The failed result returned when the loop guard fires
(langchain-agent.ts lines 285-287). -/
def loopDetectedResult (action : WebAction) : ActionResult where
  success := false
  action := action.kind
  message :=
    s!"Loop detected: You just performed this exact action ({action.kind.str}). Try something else."

/-- `LangChainWebAgent.executeAction` (langchain-agent.ts lines 279-334),
parametrised by the executor outcome function `exec` (the agent's
`this.executor.execute`; by C3 it never throws, so the surrounding
`try/catch` is modelled as dead).  Returns the updated agent state, the
action's result and the ordered list of executor invocations made.

Control flow from the source: if the loop guard fires, return the failed
loop-detected result before touching any state.  Otherwise remember the
action as `lastAction`, push an optimistic pending history entry, dispatch
(wait and done are handled inline without the executor), then rewrite the
pending entry in place with the final message and push the result. -/
def executeAction (exec : ActionInvocation → ActionResult)
    (s : AgentState) (action : WebAction) :
    AgentState × ActionResult × List ActionInvocation :=
  if loopGuardTriggers s.lastAction action then
    (s, loopDetectedResult action, [])
  else
    let s1 : AgentState :=
      { s with lastAction := some action,
               history := s.history ++ [s!"Action: " ++ action.kind.str ++ " (executing)"] }
    let dispatched : ActionResult × List ActionInvocation :=
      match action with
      | .click index _ => (exec (.click index), [.click index])
      | .type index text _ => (exec (.type index text none), [.type index text none])
      | .select index value _ => (exec (.select index value), [.select index value])
      | .scroll direction _ => (exec (.scroll direction none), [.scroll direction none])
      | .wait ms _ =>
          let effMs := if ms = 0 then 1000 else ms
          ({ success := true, action := .wait, message := s!"Waited {effMs}ms" }, [])
      | .done reasoning =>
          ({ success := true, action := .done, message := reasoning }, [])
    let result := dispatched.1
    let s2 : AgentState :=
      { s1 with
        history := s1.history.dropLast ++
          [s!"Action: " ++ action.kind.str ++ s!" ({result.message})"],
        results := s1.results ++ [result] }
    (s2, result, dispatched.2)

/-- `LangChainWebAgent.executeActions` (langchain-agent.ts lines 339-355):
run the list in order, stopping after the first failed result or an
explicit done action. -/
def executeActions (exec : ActionInvocation → ActionResult) :
    AgentState → List WebAction → AgentState × List ActionResult × List ActionInvocation
  | s, [] => (s, [], [])
  | s, action :: rest =>
      let step := executeAction exec s action
      if !step.2.1.success || action.kind = ActionType.done then
        (step.1, [step.2.1], step.2.2)
      else
        let tail := executeActions exec step.1 rest
        (tail.1, step.2.1 :: tail.2.1, step.2.2 ++ tail.2.2)

/-- The serialized state blob `{ history, results }`.  `exportState`
produces it with `JSON.stringify` and `importState` recovers it with
`JSON.parse`; the JSON round-trip is faithful for these string/record
arrays, so the blob is modelled structurally. -/
structure SerializedState where
  history : List String
  results : List ActionResult
deriving DecidableEq, Repr

/-- `LangChainWebAgent.exportState` (langchain-agent.ts lines 232-237). -/
def exportState (s : AgentState) : SerializedState :=
  { history := s.history, results := s.results }

/-- `LangChainWebAgent.importState` (langchain-agent.ts lines 242-250):
overwrite `history` and `results` from the blob (empty arrays are truthy
in JavaScript, so `state.history || []` is the parsed array whenever the
field is present); `lastAction` is untouched. -/
def importState (s : AgentState) (blob : SerializedState) : AgentState :=
  { s with history := blob.history, results := blob.results }

/-- `const startStep = this.results.length > 0 ? Math.floor(this.history.length / 2) : 0`
(langchain-agent.ts line 383). -/
def startStep (s : AgentState) : Nat :=
  if s.results.length > 0 then s.history.length / 2 else 0

/-- Outcome of one planner call (`this.chatModel.invoke` / `this.callAPI`
at langchain-agent.ts lines 438-453): the trimmed plan text, or a thrown
error caught by the step's `try/catch`. -/
inductive PlanOutcome where
  | ok (plan : String)
  | threw (err : String)

/-- Outcome of the acting call `this.chat(...)` (langchain-agent.ts
line 475): a response plus the (possibly empty) structured action list,
or a thrown error. -/
inductive ChatOutcome where
  | ok (response : String) (actions : List WebAction)
  | threw (err : String)

/-- The external collaborators of the Planner-Actor loop: the executor
outcome function and the two oracle calls, indexed by the step number and
the current agent state (which determine the prompts the source builds). -/
structure LoopEnv where
  exec : ActionInvocation → ActionResult
  planner : Nat → AgentState → PlanOutcome
  chat : Nat → AgentState → String → ChatOutcome

/-- The `for` loop of `LangChainWebAgent.execute` (langchain-agent.ts
lines 385-494), with `fuel = maxSteps - step` remaining iterations.
Per iteration: consult the planner; a thrown error breaks the loop with
the state as-is (the `catch` at lines 487-493).  A plan starting with
`ASK:` breaks without touching state.  A plan whose uppercasing starts
with `DONE`, or containing the success phrase, appends the terminal
`Completion:` history entry and breaks.  Otherwise the acting call runs:
a throw breaks; returned actions are executed via `executeActions`;
no actions appends an `Observation:` entry. -/
def execGo (env : LoopEnv) : Nat → Nat → AgentState → AgentState
  | 0, _, s => s
  | fuel + 1, step, s =>
      match env.planner step s with
      | .threw _ => s
      | .ok plan =>
          if strStartsWith plan "ASK:" then s
          else if strStartsWith (strToUpper plan) "DONE" ||
                  strIncludes plan "successfully booked" then
            { s with history := s.history ++ [s!"Completion: {plan}"] }
          else
            match env.chat step s plan with
            | .threw _ => s
            | .ok response actions =>
                if actions.length > 0 then
                  execGo env fuel (step + 1) (executeActions env.exec s actions).1
                else
                  execGo env fuel (step + 1)
                    { s with history := s.history ++ [s!"Observation: {response}"] }

/-- `LangChainWebAgent.execute(task, maxSteps, resume)` (langchain-agent.ts
lines 376-497): unless resuming, clear `results` and `history`; compute the
starting step; run the loop; return the accumulated `results`. -/
def executeTask (env : LoopEnv) (maxSteps : Nat) (resume : Bool)
    (s : AgentState) : AgentState × List ActionResult :=
  let s0 := if resume then s else { s with history := [], results := [] }
  let start := startStep s0
  let final := execGo env (maxSteps - start) start s0
  (final, final.results)

namespace ResponseParser

/-- JSON values, as produced by `JSON.parse`.  Numeric literals are
modelled as integers (every number appearing in this codebase's action
wire format is integral). -/
inductive Json where
  | null
  | bool (b : Bool)
  | num (n : Int)
  | str (s : String)
  | arr (items : List Json)
  | obj (fields : List (String × Json))
deriving Repr

/-- The two brace characters, named to keep them out of literals. -/
def lbrace : Char := Char.ofNat 123

def rbrace : Char := Char.ofNat 125

def isJsonWs (c : Char) : Bool :=
  c = ' ' ∨ c = '\n' ∨ c = '\t' ∨ c = '\r'

def skipWs : List Char → List Char
  | [] => []
  | c :: cs => if isJsonWs c then skipWs cs else c :: cs

/-- Parse the remainder of a JSON string literal (after the opening
quote), handling the escape sequences `JSON.parse` accepts. -/
def parseStringRest (acc : List Char) : List Char → Option (String × List Char)
  | [] => none
  | c :: cs =>
      if c = '"' then some (String.mk acc.reverse, cs)
      else if c = '\\' then
        match cs with
        | '"' :: rest => parseStringRest ('"' :: acc) rest
        | '\\' :: rest => parseStringRest ('\\' :: acc) rest
        | '/' :: rest => parseStringRest ('/' :: acc) rest
        | 'n' :: rest => parseStringRest ('\n' :: acc) rest
        | 't' :: rest => parseStringRest ('\t' :: acc) rest
        | 'r' :: rest => parseStringRest ('\r' :: acc) rest
        | 'b' :: rest => parseStringRest (Char.ofNat 8 :: acc) rest
        | 'f' :: rest => parseStringRest (Char.ofNat 12 :: acc) rest
        | 'u' :: h1 :: h2 :: h3 :: h4 :: rest =>
            let isHex (h : Char) : Bool :=
              h.isDigit ∨ ('a' ≤ h ∧ h ≤ 'f') ∨ ('A' ≤ h ∧ h ≤ 'F')
            if isHex h1 ∧ isHex h2 ∧ isHex h3 ∧ isHex h4 then
              let hexVal (h : Char) : Nat :=
                if h.isDigit then h.toNat - '0'.toNat
                else if 'a' ≤ h ∧ h ≤ 'f' then h.toNat - 'a'.toNat + 10
                else h.toNat - 'A'.toNat + 10
              let code := ((hexVal h1 * 16 + hexVal h2) * 16 + hexVal h3) * 16 + hexVal h4
              parseStringRest (Char.ofNat code :: acc) rest
            else none
        | _ => none
      else parseStringRest (c :: acc) cs

def digitsVal : List Char → Nat → Nat
  | [], acc => acc
  | d :: ds, acc => digitsVal ds (acc * 10 + (d.toNat - '0'.toNat))

/-- Parse a run of decimal digits (at least one). -/
def parseDigits (cs : List Char) : Option (Nat × List Char) :=
  let digits := cs.takeWhile Char.isDigit
  if digits.isEmpty then none
  else some (digitsVal digits 0, cs.dropWhile Char.isDigit)

mutual

/-- Parse one JSON value.  `fuel` bounds nesting depth. -/
def parseValue : Nat → List Char → Option (Json × List Char)
  | 0, _ => none
  | fuel + 1, input =>
      match skipWs input with
      | [] => none
      | c :: cs =>
          if c = lbrace then parseObjFields fuel (skipWs cs) []
          else if c = '[' then parseArrItems fuel (skipWs cs) []
          else if c = '"' then
            (parseStringRest [] cs).map fun p => (Json.str p.1, p.2)
          else if c = '-' then
            (parseDigits cs).map fun p => (Json.num (-(p.1 : Int)), p.2)
          else if c.isDigit then
            (parseDigits (c :: cs)).map fun p => (Json.num (p.1 : Int), p.2)
          else if c = 'n' then
            match cs with
            | 'u' :: 'l' :: 'l' :: rest => some (Json.null, rest)
            | _ => none
          else if c = 't' then
            match cs with
            | 'r' :: 'u' :: 'e' :: rest => some (Json.bool true, rest)
            | _ => none
          else if c = 'f' then
            match cs with
            | 'a' :: 'l' :: 's' :: 'e' :: rest => some (Json.bool false, rest)
            | _ => none
          else none

/-- Parse the fields of an object, cursor just past the opening brace
(whitespace skipped). -/
def parseObjFields : Nat → List Char → List (String × Json) →
    Option (Json × List Char)
  | 0, _, _ => none
  | _, [], _ => none
  | fuel + 1, c :: cs, acc =>
      if c = rbrace then
        if acc.isEmpty then some (Json.obj [], cs) else none
      else if c = '"' then
        match parseStringRest [] cs with
        | none => none
        | some (key, afterKey) =>
            match skipWs afterKey with
            | ':' :: afterColon =>
                match parseValue fuel afterColon with
                | none => none
                | some (v, afterVal) =>
                    match skipWs afterVal with
                    | ',' :: afterComma =>
                        parseObjFields fuel (skipWs afterComma) (acc ++ [(key, v)])
                    | d :: rest =>
                        if d = rbrace then some (Json.obj (acc ++ [(key, v)]), rest)
                        else none
                    | [] => none
            | _ => none
      else none

/-- Parse the items of an array, cursor just past the opening bracket
(whitespace skipped). -/
def parseArrItems : Nat → List Char → List Json → Option (Json × List Char)
  | 0, _, _ => none
  | _, [], _ => none
  | fuel + 1, c :: cs, acc =>
      if c = ']' then
        if acc.isEmpty then some (Json.arr [], cs) else none
      else
        match parseValue fuel (c :: cs) with
        | none => none
        | some (v, afterVal) =>
            match skipWs afterVal with
            | ',' :: afterComma => parseArrItems fuel (skipWs afterComma) (acc ++ [v])
            | ']' :: rest => some (Json.arr (acc ++ [v]), rest)
            | _ => none

end

/-- `JSON.parse`: the whole input must be one value followed only by
whitespace, else the parse throws (here: `none`).  The fuel bound
`2 * length + 8` exceeds the recursion depth reachable on any input
(every two nested calls consume at least one character). -/
def jsonParse (s : String) : Option Json :=
  match parseValue (2 * s.length + 8) s.data with
  | some (v, rest) => if (skipWs rest).isEmpty then some v else none
  | none => none

/-- Field lookup on a parsed object. -/
def jGet (fields : List (String × Json)) (key : String) : Option Json :=
  (fields.find? fun f => f.1 = key).map (·.2)

def asString : Json → Option String
  | .str s => some s
  | _ => none

def asNumber : Json → Option Int
  | .num n => some n
  | _ => none

/-- `WebActionSchema.safeParse` (langchain-agent.ts lines 70-77): the Zod
discriminated union on the `action` field.  Each variant requires its
fields with the right primitive types; `wait.ms` defaults to 1000 when
absent; unknown keys are stripped. -/
def safeParseAction (j : Json) : Option WebAction :=
  match j with
  | .obj fields =>
      match jGet fields "action" with
      | some (.str "click") => do
          let index ← (jGet fields "index").bind asNumber
          let reasoning ← (jGet fields "reasoning").bind asString
          pure (WebAction.click index reasoning)
      | some (.str "type") => do
          let index ← (jGet fields "index").bind asNumber
          let text ← (jGet fields "text").bind asString
          let reasoning ← (jGet fields "reasoning").bind asString
          pure (WebAction.type index text reasoning)
      | some (.str "select") => do
          let index ← (jGet fields "index").bind asNumber
          let value ← (jGet fields "value").bind asString
          let reasoning ← (jGet fields "reasoning").bind asString
          pure (WebAction.select index value reasoning)
      | some (.str "scroll") => do
          let dirStr ← (jGet fields "direction").bind asString
          let direction ←
            if dirStr = "up" then some ScrollDirection.up
            else if dirStr = "down" then some ScrollDirection.down
            else none
          let reasoning ← (jGet fields "reasoning").bind asString
          pure (WebAction.scroll direction reasoning)
      | some (.str "wait") => do
          let ms ←
            match jGet fields "ms" with
            | none => some (1000 : Int)
            | some v => asNumber v
          let reasoning ← (jGet fields "reasoning").bind asString
          pure (WebAction.wait ms reasoning)
      | some (.str "done") => do
          let reasoning ← (jGet fields "reasoning").bind asString
          pure (WebAction.done reasoning)
      | _ => none
  | _ => none

/-- `WebActionsListSchema.safeParse` (langchain-agent.ts lines 82-85):
requires an `actions` array of valid actions and a string `summary`. -/
def safeParseActionsList (j : Json) : Option (String × List WebAction) :=
  match j with
  | .obj fields => do
      let items ←
        match jGet fields "actions" with
        | some (.arr xs) => some xs
        | _ => none
      let actions ← items.mapM safeParseAction
      let summary ← (jGet fields "summary").bind asString
      pure (summary, actions)
  | _ => none

/-- The result record of `parseActionsFromResponse`
(`{ summary?: string; actions?: WebAction[] }`). -/
structure ParsedActions where
  summary : Option String := none
  actions : Option (List WebAction) := none
deriving DecidableEq, Repr

/-- `response.match(/\x7b[\s\S]*\x7d/)` — a greedy match: the span runs
from the first opening brace that precedes the last closing brace,
through that last closing brace. -/
def extractJson (s : String) : Option String :=
  let cs := s.data
  match cs.findIdx? (· = lbrace), (cs.reverse.findIdx? (· = rbrace)) with
  | some p, some revQ =>
      let q := cs.length - 1 - revQ
      if p < q then some (String.mk ((cs.drop p).take (q - p + 1)))
      else none
  | _, _ => none

/-- One iteration of the retry loop in `parseActionsFromResponse`
(langchain-agent.ts lines 678-704): extract the brace-delimited span,
`JSON.parse` it (a throw is caught: `none`), then — when the parsed value
has an array `actions` field — try the list schema; otherwise (or when the
list schema fails) try the single-action schema; `none` when nothing
validated. -/
def attemptParse (response : String) : Option ParsedActions :=
  match extractJson response with
  | none => none
  | some span =>
      match jsonParse span with
      | none => none
      | some parsed =>
          let trySingle : Option ParsedActions :=
            match safeParseAction parsed with
            | some a => some { summary := some a.reasoning, actions := some [a] }
            | none => none
          let actionsIsArray :=
            match parsed with
            | .obj fields =>
                match jGet fields "actions" with
                | some (.arr _) => true
                | _ => false
            | _ => false
          if actionsIsArray then
            match safeParseActionsList parsed with
            | some (summary, actions) =>
                some { summary := some summary, actions := some actions }
            | none => trySingle
          else trySingle

/-- The retry loop itself: each iteration repeats the same computation on
the same response. -/
def parseRetries : Nat → String → ParsedActions
  | 0, _ => {}
  | n + 1, response =>
      match attemptParse response with
      | some p => p
      | none => parseRetries n response

/-- `LangChainWebAgent.parseActionsFromResponse` (langchain-agent.ts lines
676-708).  `maxRetries` is `this.config.maxRetries || 3` — a configured 0
falls back to 3 (JavaScript falsiness). -/
def parseActionsFromResponse (maxRetries : Nat) (response : String) :
    ParsedActions :=
  parseRetries (if maxRetries = 0 then 3 else maxRetries) response

end ResponseParser

/-- Demo page nodes: a visible button, a zero-width (invisible) anchor,
and a duplicate occurrence of the button. -/
def demoButton : Elem :=
  { eid := 0, tagName := "BUTTON", textContent := "Search",
    width := 10, height := 10 }

def demoHidden : Elem :=
  { eid := 1, tagName := "A", width := 0, height := 5 }

def demoDom : List Elem := [demoButton, demoHidden, demoButton]

/-! ## Claims -/

/-- Claim C1: for every structured action whose kind is not scroll and not
wait, if it structurally equals the immediately preceding executed action
(comparing kind and all parameters while ignoring the rationale field),
`executeAction` returns the failed loop-detected result and the Action
Executor is never invoked for this second occurrence; scroll and wait
actions are exempt (they pass the guard and execute normally). -/
theorem executeAction_loop_guard (exec : ActionInvocation → ActionResult)
    (s : AgentState) (a b : WebAction) (hlast : s.lastAction = some b) :
    (a.kind ≠ ActionType.scroll → a.kind ≠ ActionType.wait →
      cleanAction a = cleanAction b →
      (executeAction exec s a).2.1 = loopDetectedResult a ∧
      (executeAction exec s a).2.1.success = false ∧
      (executeAction exec s a).2.2 = []) ∧
    (a.kind = ActionType.scroll ∨ a.kind = ActionType.wait →
      (executeAction exec s a).1.lastAction = some a ∧
      (executeAction exec s a).1.results =
        s.results ++ [(executeAction exec s a).2.1]) := by
  constructor
  · intro hscroll hwait heq
    have hg : loopGuardTriggers s.lastAction a = true := by
      simp [loopGuardTriggers, hlast, hscroll, hwait, heq]
    simp [executeAction, hg, loopDetectedResult]
  · intro hkind
    have hg : loopGuardTriggers s.lastAction a = false := by
      rcases hkind with h | h <;> simp [loopGuardTriggers, hlast, h]
    simp [executeAction, hg]

/-- Witness for C1 at concrete inputs: repeating `click 0` (with a fresh
rationale) right after it executed is rejected with the loop-detected
result and zero executor invocations, while a repeated scroll is exempt
and is recorded as the new last action. -/
theorem executeAction_loop_guard_witness :
    (executeAction (fun _ => { success := true, action := .click, message := "" })
        { history := [], results := [],
          lastAction := some (WebAction.click 0 "first") }
        (WebAction.click 0 "second")).2.1 =
      loopDetectedResult (WebAction.click 0 "second") ∧
    (executeAction (fun _ => { success := true, action := .click, message := "" })
        { history := [], results := [],
          lastAction := some (WebAction.click 0 "first") }
        (WebAction.click 0 "second")).2.2 = [] ∧
    (executeAction (fun _ => { success := true, action := .click, message := "" })
        { history := [], results := [],
          lastAction := some (WebAction.scroll .down "a") }
        (WebAction.scroll .down "b")).1.lastAction =
      some (WebAction.scroll .down "b") := by
  refine ⟨?_, ?_, ?_⟩
  · exact ((executeAction_loop_guard _ _ _ _ rfl).1 (by decide) (by decide)
      (by decide)).1
  · exact ((executeAction_loop_guard _ _ _ _ rfl).1 (by decide) (by decide)
      (by decide)).2.2
  · exact ((executeAction_loop_guard _ _ _ _ rfl).2 (Or.inl (by decide))).1

/-- Claim C10: when `executeAction` rejects an action as a detected loop,
the orchestrator state is completely unchanged — no pending history entry,
no result pushed, `lastAction` not updated — and inside `executeActions`
the failed result still stops the remaining actions of the batch. -/
theorem executeAction_loop_frame (exec : ActionInvocation → ActionResult)
    (s : AgentState) (a b : WebAction) (rest : List WebAction)
    (hlast : s.lastAction = some b)
    (hscroll : a.kind ≠ ActionType.scroll) (hwait : a.kind ≠ ActionType.wait)
    (heq : cleanAction a = cleanAction b) :
    (executeAction exec s a).1 = s ∧
    executeActions exec s (a :: rest) = (s, [loopDetectedResult a], []) := by
  have hg : loopGuardTriggers s.lastAction a = true := by
    simp [loopGuardTriggers, hlast, hscroll, hwait, heq]
  constructor
  · simp [executeAction, hg]
  · simp [executeActions, executeAction, hg, loopDetectedResult]

/-- Witness for C10: repeating `type 1 "x"` leaves the state untouched and
stops the remaining batch. -/
theorem executeAction_loop_frame_witness :
    (executeAction (fun _ => { success := true, action := .type, message := "" })
        { history := ["h"], results := [],
          lastAction := some (WebAction.type 1 "x" "r1") }
        (WebAction.type 1 "x" "r2")).1 =
      { history := ["h"], results := [],
        lastAction := some (WebAction.type 1 "x" "r1") } ∧
    executeActions (fun _ => { success := true, action := .type, message := "" })
        { history := ["h"], results := [],
          lastAction := some (WebAction.type 1 "x" "r1") }
        [WebAction.type 1 "x" "r2", WebAction.click 2 "next"] =
      ({ history := ["h"], results := [],
         lastAction := some (WebAction.type 1 "x" "r1") },
       [loopDetectedResult (WebAction.type 1 "x" "r2")], []) :=
  executeAction_loop_frame _ _ _ _ _ rfl (by decide) (by decide) (by decide)

/-- Claim C2: `exportState()` followed by `importState()` restores History
and Results exactly, and a subsequent `execute` with the resume flag set
starts from step `floor(history.length / 2)` when results is non-empty and
from 0 when results is empty (resume skips the re-initialization that
would clear the state). -/
theorem exportState_importState_roundtrip (s t : AgentState) (env : LoopEnv)
    (maxSteps : Nat) :
    ((importState t (exportState s)).history = s.history) ∧
    ((importState t (exportState s)).results = s.results) ∧
    (s.results ≠ [] →
      startStep (importState t (exportState s)) = s.history.length / 2) ∧
    (s.results = [] → startStep (importState t (exportState s)) = 0) ∧
    (executeTask env maxSteps true (importState t (exportState s)) =
      (execGo env (maxSteps - startStep (importState t (exportState s)))
        (startStep (importState t (exportState s)))
        (importState t (exportState s)),
       (execGo env (maxSteps - startStep (importState t (exportState s)))
         (startStep (importState t (exportState s)))
         (importState t (exportState s))).results)) := by
  refine ⟨rfl, rfl, ?_, ?_, rfl⟩
  · intro h
    simp [startStep, importState, exportState, List.length_pos.mpr h]
  · intro h
    simp [startStep, importState, exportState, h]

/-- Witness for C2: a two-entry history with one result resumes at step 1;
an empty-results state resumes at step 0. -/
theorem exportState_importState_roundtrip_witness :
    startStep (importState { history := [], results := [], lastAction := none }
        (exportState { history := ["a", "b"],
                       results := [{ success := true, action := .click, message := "m" }],
                       lastAction := none })) = 1 ∧
    startStep (importState { history := [], results := [], lastAction := none }
        (exportState { history := ["a", "b"], results := [],
                       lastAction := none })) = 0 := by
  constructor
  · exact (exportState_importState_roundtrip
      { history := ["a", "b"],
        results := [{ success := true, action := .click, message := "m" }],
        lastAction := none }
      { history := [], results := [], lastAction := none }
      { exec := fun _ => { success := true, action := .click, message := "" },
        planner := fun _ _ => .threw "e", chat := fun _ _ _ => .threw "e" }
      0).2.2.1 (by decide)
  · exact (exportState_importState_roundtrip
      { history := ["a", "b"], results := [], lastAction := none }
      { history := [], results := [], lastAction := none }
      { exec := fun _ => { success := true, action := .click, message := "" },
        planner := fun _ _ => .threw "e", chat := fun _ _ _ => .threw "e" }
      0).2.2.2.1 rfl

/-- Claim C7: any error thrown during the planning call or the acting call
of a step makes the loop perform no further steps in this invocation; the
accumulated Results are returned unchanged, and (by the total return type
of `executeTask`) the error is never propagated to the caller. -/
theorem execute_error_keeps_results (env : LoopEnv) (s : AgentState)
    (step fuel maxSteps : Nat) (e : String) :
    (env.planner step s = .threw e → execGo env (fuel + 1) step s = s) ∧
    (∀ plan, env.planner step s = .ok plan →
      strStartsWith plan "ASK:" = false →
      (strStartsWith (strToUpper plan) "DONE" ||
        strIncludes plan "successfully booked") = false →
      env.chat step s plan = .threw e →
      execGo env (fuel + 1) step s = s) ∧
    (env.planner (startStep s) s = .threw e →
      executeTask env maxSteps true s = (s, s.results)) := by
  refine ⟨?_, ?_, ?_⟩
  · intro h
    simp [execGo, h]
  · intro plan hplan hask hdone hchat
    simp [execGo, hplan, hask, hdone, hchat]
  · intro h
    have key : execGo env (maxSteps - startStep s) (startStep s) s = s := by
      cases hfuel : maxSteps - startStep s with
      | zero => simp [execGo]
      | succ n => simp [execGo, h]
    simp [executeTask, key]

/-- Witness for C7: with an oracle that throws at once, a one-step loop
returns the pre-existing state and results untouched. -/
theorem execute_error_keeps_results_witness :
    execGo
      { exec := fun _ => { success := true, action := .click, message := "" },
        planner := fun _ _ => .threw "network down",
        chat := fun _ _ _ => .threw "network down" }
      1 0
      { history := ["Action: click (done)"],
        results := [{ success := true, action := .click, message := "done" }],
        lastAction := none } =
      { history := ["Action: click (done)"],
        results := [{ success := true, action := .click, message := "done" }],
        lastAction := none } ∧
    executeTask
      { exec := fun _ => { success := true, action := .click, message := "" },
        planner := fun _ _ => .threw "network down",
        chat := fun _ _ _ => .threw "network down" }
      5 true
      { history := ["Action: click (done)"],
        results := [{ success := true, action := .click, message := "done" }],
        lastAction := none } =
      ({ history := ["Action: click (done)"],
         results := [{ success := true, action := .click, message := "done" }],
         lastAction := none },
       [{ success := true, action := .click, message := "done" }]) := by
  constructor
  · exact (execute_error_keeps_results _ _ 0 0 5 "network down").1 rfl
  · exact (execute_error_keeps_results _ _ 0 0 5 "network down").2.2 rfl

/-- Counterexample to claim C8 as stated: the plan
`"ASK: I successfully booked it"` contains the recognized success phrase
`"successfully booked"`, yet the loop takes the `ASK:` branch (checked
first, langchain-agent.ts line 457) and halts WITHOUT appending any
terminal `Completion:` history entry — the history stays empty. -/
theorem execute_done_halts_cex :
    (execGo
      { exec := fun _ => { success := true, action := .click, message := "" },
        planner := fun _ _ => .ok "ASK: I successfully booked it",
        chat := fun _ _ _ => .ok "" [] }
      1 0 { history := [], results := [], lastAction := none }).history = [] ∧
    strIncludes "ASK: I successfully booked it"
      "successfully booked" = true := by
  constructor
  · rfl
  · decide

/-- Claim C8 (amended): when the plan does not start with `ASK:` and either
starts with `DONE` case-insensitively or contains the recognized success
phrase, `execute` appends the terminal `Completion:`-prefixed history
entry and halts with everything else (results included) unchanged —
regardless of any unresolved page errors, which the loop never inspects
(the quantified environment covers every page state); when the plan starts
with `ASK:`, `execute` halts without appending anything. -/
theorem execute_done_halts (env : LoopEnv) (s : AgentState)
    (step fuel : Nat) (plan : String)
    (hplan : env.planner step s = .ok plan) :
    (strStartsWith plan "ASK:" = false →
      (strStartsWith (strToUpper plan) "DONE" ||
        strIncludes plan "successfully booked") = true →
      execGo env (fuel + 1) step s =
        { s with history := s.history ++ [s!"Completion: {plan}"] }) ∧
    (strStartsWith plan "ASK:" = true → execGo env (fuel + 1) step s = s) := by
  constructor
  · intro hask hdone
    simp [execGo, hplan, hask, hdone]
  · intro hask
    simp [execGo, hplan, hask]

/-- Witness for C8 (amended): the plan `"Done: booked the flight"` (which
starts with DONE case-insensitively) appends exactly one Completion entry
and halts; the plan `"ASK: which date?"` halts with nothing appended. -/
theorem execute_done_halts_witness :
    execGo
      { exec := fun _ => { success := true, action := .click, message := "" },
        planner := fun _ _ => .ok "Done: booked the flight",
        chat := fun _ _ _ => .ok "" [] }
      3 0 { history := ["h"], results := [], lastAction := none } =
      { history := ["h", "Completion: Done: booked the flight"],
        results := [], lastAction := none } ∧
    execGo
      { exec := fun _ => { success := true, action := .click, message := "" },
        planner := fun _ _ => .ok "ASK: which date?",
        chat := fun _ _ _ => .ok "" [] }
      3 0 { history := ["h"], results := [], lastAction := none } =
      { history := ["h"], results := [], lastAction := none } := by
  constructor
  · exact (execute_done_halts _ _ 0 2 "Done: booked the flight" rfl).1
      (by decide) (by decide)
  · exact (execute_done_halts _ _ 0 2 "ASK: which date?" rfl).2 (by decide)

/-- Claim C3: `ActionExecutor.execute` always returns a plain
`ActionResult` (its Lean type is total — nothing escapes); when the
dispatched handler throws, the exception is caught and converted to a
failed result whose `error` field carries the underlying message; and a
click on an index with no live handle in the current snapshot yields a
failed "not found" result rather than an exception. -/
theorem execute_never_throws (env : ExecEnv) (inv : ActionInvocation) :
    (∀ e, ActionExecutor.run env inv = .error e →
      (ActionExecutor.execute env inv).2 =
        { success := false, action := inv.kind,
          message := "Action failed: " ++ inv.kind.str, error := some e }) ∧
    (∀ index, inv = ActionInvocation.click index → env.getElement index = none →
      (ActionExecutor.execute env inv).2 =
        { success := false, action := ActionType.click,
          message := s!"Element [{index}] not found" }) := by
  constructor
  · intro e h
    simp [ActionExecutor.execute, h]
  · intro index hinv hget
    subst hinv
    simp [ActionExecutor.execute, ActionExecutor.run, ActionExecutor.click, hget]

/-- Witness for C3: a DOM fault during a type action is converted to a
failed result carrying the message, and a click on the empty snapshot
fails with "not found". -/
theorem execute_never_throws_witness :
    (ActionExecutor.execute
      { getElement := fun _ => some { eid := 0, tagName := "INPUT" },
        domFault := some "boom" }
      (ActionInvocation.type 0 "hi" none)).2 =
      { success := false, action := ActionType.type,
        message := "Action failed: type", error := some "boom" } ∧
    (ActionExecutor.execute
      { getElement := fun _ => none } (ActionInvocation.click 7)).2 =
      { success := false, action := ActionType.click,
        message := "Element [7] not found" } := by
  constructor
  · exact (execute_never_throws
      { getElement := fun _ => some { eid := 0, tagName := "INPUT" },
        domFault := some "boom" }
      (ActionInvocation.type 0 "hi" none)).1 "boom" rfl
  · exact (execute_never_throws
      { getElement := fun _ => none } (ActionInvocation.click 7)).2 7 rfl rfl

/-- Claim C4: `select` matches the requested value against the options by
descending specificity — exact value, case-insensitive value, exact
visible label, case-insensitive visible label, substring-of-label —
taking the first match; on a match it sets the element's value and fires
change and input and succeeds; on no match it fails with a message listing
all option labels.  For options `[{a, Option A}, {b, Option B}]`,
requesting `"A"` matches value `"a"` by the case-insensitive value rule
before any label matching (the exact-value search finds nothing). -/
theorem select_precedence (opts : List SelectOption) (v : String)
    (env : ExecEnv) (index : Int) (el : Elem)
    (hel : env.getElement index = some el) (hfault : env.domFault = none) :
    (∀ o, opts.find? (fun opt => opt.value = v) = some o →
      ActionExecutor.findMatchedOption opts v = some o) ∧
    (opts.find? (fun opt => opt.value = v) = none →
      ∀ o, opts.find? (fun opt => strToLower opt.value = strToLower v) = some o →
      ActionExecutor.findMatchedOption opts v = some o) ∧
    (opts.find? (fun opt => opt.value = v) = none →
      opts.find? (fun opt => strToLower opt.value = strToLower v) = none →
      ∀ o, opts.find? (fun opt => opt.text = v) = some o →
      ActionExecutor.findMatchedOption opts v = some o) ∧
    (opts.find? (fun opt => opt.value = v) = none →
      opts.find? (fun opt => strToLower opt.value = strToLower v) = none →
      opts.find? (fun opt => opt.text = v) = none →
      ∀ o, opts.find? (fun opt => strToLower opt.text = strToLower v) = some o →
      ActionExecutor.findMatchedOption opts v = some o) ∧
    (opts.find? (fun opt => opt.value = v) = none →
      opts.find? (fun opt => strToLower opt.value = strToLower v) = none →
      opts.find? (fun opt => opt.text = v) = none →
      opts.find? (fun opt => strToLower opt.text = strToLower v) = none →
      ActionExecutor.findMatchedOption opts v =
        opts.find? (fun opt => strIncludes (strToLower opt.text) (strToLower v))) ∧
    (∀ o, ActionExecutor.findMatchedOption el.options v = some o →
      ActionExecutor.execute env (ActionInvocation.select index v) =
        ({ elem := some { el with value := o.value },
           events := [DomEvent.change, DomEvent.input] },
         { success := true, action := ActionType.select,
           message := s!"Selected \"{o.text}\" (value: {o.value}) in element [{index}]" })) ∧
    (ActionExecutor.findMatchedOption el.options v = none →
      ActionExecutor.execute env (ActionInvocation.select index v) =
        ({ elem := some el, events := [] },
         { success := false, action := ActionType.select,
           message := s!"Option \"{v}\" not found in element [{index}]. Available: " ++
             String.intercalate ", " (el.options.map (·.text)) })) ∧
    (ActionExecutor.findMatchedOption
        [⟨"a", "Option A"⟩, ⟨"b", "Option B"⟩] "A" = some ⟨"a", "Option A"⟩ ∧
      ([(⟨"a", "Option A"⟩ : SelectOption), ⟨"b", "Option B"⟩].find?
        (fun opt => opt.value = "A")) = none) := by
  refine ⟨?_, ?_, ?_, ?_, ?_, ?_, ?_, by decide, by decide⟩
  · intro o h
    simp [ActionExecutor.findMatchedOption, h]
  · intro h1 o h
    simp [ActionExecutor.findMatchedOption, h1, h]
  · intro h1 h2 o h
    simp [ActionExecutor.findMatchedOption, h1, h2, h]
  · intro h1 h2 h3 o h
    simp [ActionExecutor.findMatchedOption, h1, h2, h3, h]
  · intro h1 h2 h3 h4
    simp [ActionExecutor.findMatchedOption, h1, h2, h3, h4]
  · intro o h
    simp [ActionExecutor.execute, ActionExecutor.run, ActionExecutor.select,
      hel, hfault, h]
  · intro h
    simp [ActionExecutor.execute, ActionExecutor.run, ActionExecutor.select,
      hel, hfault, h]

/-- Witness for C4: selecting `"A"` on the two-option dropdown matches the
option with value `"a"`, sets the element value to `"a"`, fires change and
input, and succeeds. -/
theorem select_precedence_witness :
    ActionExecutor.execute
      { getElement := fun _ => some
          { eid := 0, tagName := "SELECT",
            options := [⟨"a", "Option A"⟩, ⟨"b", "Option B"⟩] } }
      (ActionInvocation.select 3 "A") =
      ({ elem := some { eid := 0, tagName := "SELECT", value := "a",
                        options := [⟨"a", "Option A"⟩, ⟨"b", "Option B"⟩] },
         events := [DomEvent.change, DomEvent.input] },
       { success := true, action := ActionType.select,
         message := "Selected \"Option A\" (value: a) in element [3]" }) :=
  (select_precedence [⟨"a", "Option A"⟩, ⟨"b", "Option B"⟩] "A"
      { getElement := fun _ => some
          { eid := 0, tagName := "SELECT",
            options := [⟨"a", "Option A"⟩, ⟨"b", "Option B"⟩] } }
      3 { eid := 0, tagName := "SELECT",
          options := [⟨"a", "Option A"⟩, ⟨"b", "Option B"⟩] }
      rfl rfl).2.2.2.2.2.1 ⟨"a", "Option A"⟩ (by decide)

/-- Claim C5: `type` on a checkbox or radio input sets `checked` to true
exactly when the lowercased text belongs to `{true, yes, on, 1, checked}`,
fires change and input exactly once each, and succeeds. -/
theorem type_checkbox_truthy (env : ExecEnv) (index : Int) (text : String)
    (el : Elem) (hel : env.getElement index = some el)
    (hfault : env.domFault = none)
    (hbox : el.inputType.getD "text" = "checkbox" ∨
            el.inputType.getD "text" = "radio") :
    (ActionExecutor.execute env (ActionInvocation.type index text none)).2.success
        = true ∧
    (ActionExecutor.execute env (ActionInvocation.type index text none)).1.elem =
      some { el with
             checked := ActionExecutor.truthyTokens.contains (strToLower text) } ∧
    ((ActionExecutor.execute env (ActionInvocation.type index text none)).1.events.count
        DomEvent.change = 1) ∧
    ((ActionExecutor.execute env (ActionInvocation.type index text none)).1.events.count
        DomEvent.input = 1) := by
  have hbranch : (el.inputType.getD "text" = "checkbox" ∨
      el.inputType.getD "text" = "radio") = True := by simp [hbox]
  refine ⟨?_, ?_, ?_, ?_⟩ <;>
    simp [ActionExecutor.execute, ActionExecutor.run, ActionExecutor.type,
      hel, hfault, hbranch, List.count_cons]

/-- Witness for C5: typing `"yes"` into a checkbox checks it with exactly
one change and one input event; typing `"no"` unchecks it. -/
theorem type_checkbox_truthy_witness :
    (ActionExecutor.execute
      { getElement := fun _ => some
          { eid := 2, tagName := "INPUT", inputType := some "checkbox" } }
      (ActionInvocation.type 0 "yes" none)).1.elem =
      some { eid := 2, tagName := "INPUT", inputType := some "checkbox",
             checked := true } ∧
    (ActionExecutor.execute
      { getElement := fun _ => some
          { eid := 2, tagName := "INPUT", inputType := some "checkbox" } }
      (ActionInvocation.type 0 "yes" none)).1.events.count DomEvent.change = 1 ∧
    (ActionExecutor.execute
      { getElement := fun _ => some
          { eid := 2, tagName := "INPUT", inputType := some "checkbox" } }
      (ActionInvocation.type 0 "yes" none)).1.events.count DomEvent.input = 1 ∧
    (ActionExecutor.execute
      { getElement := fun _ => some
          { eid := 2, tagName := "INPUT", inputType := some "checkbox" } }
      (ActionInvocation.type 0 "no" none)).1.elem =
      some { eid := 2, tagName := "INPUT", inputType := some "checkbox",
             checked := false } := by
  refine ⟨?_, ?_, ?_, ?_⟩
  · have h := (type_checkbox_truthy
      { getElement := fun _ => some
          { eid := 2, tagName := "INPUT", inputType := some "checkbox" } }
      0 "yes" { eid := 2, tagName := "INPUT", inputType := some "checkbox" }
      rfl rfl (Or.inl rfl)).2.1
    rw [h]; decide
  · exact (type_checkbox_truthy
      { getElement := fun _ => some
          { eid := 2, tagName := "INPUT", inputType := some "checkbox" } }
      0 "yes" { eid := 2, tagName := "INPUT", inputType := some "checkbox" }
      rfl rfl (Or.inl rfl)).2.2.1
  · exact (type_checkbox_truthy
      { getElement := fun _ => some
          { eid := 2, tagName := "INPUT", inputType := some "checkbox" } }
      0 "yes" { eid := 2, tagName := "INPUT", inputType := some "checkbox" }
      rfl rfl (Or.inl rfl)).2.2.2
  · have h := (type_checkbox_truthy
      { getElement := fun _ => some
          { eid := 2, tagName := "INPUT", inputType := some "checkbox" } }
      0 "no" { eid := 2, tagName := "INPUT", inputType := some "checkbox" }
      rfl rfl (Or.inl rfl)).2.1
    rw [h]; decide

namespace DOMAnalyzer

/-- Helper: `buildElementsFrom` preserves length. -/
theorem buildElementsFrom_length (l : List Elem) :
    ∀ i, (buildElementsFrom i l).length = l.length := by
  induction l with
  | nil => intro i; rfl
  | cons y ys ih => intro i; simp [buildElementsFrom, ih]

/-- Helper: appending one element to the cache appends its record. -/
theorem buildElementsFrom_append (l : List Elem) (x : Elem) :
    ∀ i, buildElementsFrom i (l ++ [x]) =
      buildElementsFrom i l ++ [mkInteractiveElement (i + l.length) x] := by
  induction l with
  | nil => intro i; simp [buildElementsFrom]
  | cons y ys ih =>
      intro i
      have harith : i + 1 + ys.length = i + (ys.length + 1) := by omega
      simp [buildElementsFrom, ih (i + 1), harith]

/-- Helper: looking up entry `k` of the built array. -/
theorem buildElementsFrom_get? (l : List Elem) :
    ∀ k i el, l.get? k = some el →
      (buildElementsFrom i l).get? k = some (mkInteractiveElement (i + k) el) := by
  induction l with
  | nil => intro k i el h; simp at h
  | cons y ys ih =>
      intro k i el h
      cases k with
      | zero =>
          simp at h
          subst h
          simp [buildElementsFrom]
      | succ n =>
          simp only [List.get?] at h
          have harith : i + (n + 1) = (i + 1) + n := by omega
          simpa [buildElementsFrom, harith] using ih n (i + 1) el h

/-- Helper: the cache produced by the discovery fold is the previous cache
followed by the not-yet-seen visible nodes in document order. -/
theorem discover_cache (dom : List Elem) :
    ∀ acc : DiscoveryAcc,
      (dom.foldl discoverStep acc).cache =
        acc.cache ++ (dedupByEid acc.seen dom).filter isVisible := by
  induction dom with
  | nil => intro acc; simp [dedupByEid]
  | cons el rest ih =>
      intro acc
      simp only [List.foldl_cons, dedupByEid]
      by_cases hseen : el.eid ∈ acc.seen
      · simp [discoverStep, hseen, ih]
      · by_cases hvis : isVisible el
        · simp [discoverStep, hseen, hvis, ih]
        · simp [discoverStep, hseen, hvis, ih]

/-- Helper: the discovery fold keeps `elements` in lockstep with the
cache — entry `k` is the record built from cache entry `k` with index `k`. -/
theorem discover_elements (dom : List Elem) :
    ∀ acc : DiscoveryAcc, acc.elements = buildElementsFrom 0 acc.cache →
      (dom.foldl discoverStep acc).elements =
        buildElementsFrom 0 (dom.foldl discoverStep acc).cache := by
  induction dom with
  | nil => intro acc h; simpa using h
  | cons el rest ih =>
      intro acc h
      simp only [List.foldl_cons]
      by_cases hseen : el.eid ∈ acc.seen
      · exact ih _ (by simp [discoverStep, hseen, h])
      · by_cases hvis : isVisible el
        · refine ih _ ?_
          have hstep : discoverStep acc el =
              { seen := acc.seen ++ [el.eid],
                elements := acc.elements ++
                  [mkInteractiveElement acc.elements.length el],
                cache := acc.cache ++ [el] } := by
            simp [discoverStep, hseen, hvis]
          rw [hstep]
          show acc.elements ++ [mkInteractiveElement acc.elements.length el] =
            buildElementsFrom 0 (acc.cache ++ [el])
          rw [buildElementsFrom_append, h, buildElementsFrom_length]
          simp
        · exact ih _ (by simp [discoverStep, hseen, hvis, h])

end DOMAnalyzer

/-- Claim C6: for every snapshot, `elements` contains exactly the
discovered interactive nodes that pass the visibility test, with dense
0-based indices in document order (entry `i` is built from cache entry `i`
with index `i`); `getElement i` returns the very node used to build
`elements[i]` and returns none past the table; the table is rebuilt
wholesale, independent of the previous cache; and an invisible node never
appears. -/
theorem analyzer_snapshot_indexing (oldCache oldCache' dom : List Elem) :
    ((DOMAnalyzer.findInteractiveElements oldCache dom).1 =
      DOMAnalyzer.buildElementsFrom 0
        (DOMAnalyzer.findInteractiveElements oldCache dom).2) ∧
    (∀ i el, (DOMAnalyzer.findInteractiveElements oldCache dom).2.get? i = some el →
      (DOMAnalyzer.findInteractiveElements oldCache dom).1.get? i =
        some (DOMAnalyzer.mkInteractiveElement i el) ∧
      DOMAnalyzer.getElement (DOMAnalyzer.findInteractiveElements oldCache dom).2 i =
        some el ∧
      DOMAnalyzer.isVisible el = true) ∧
    (∀ i, (DOMAnalyzer.findInteractiveElements oldCache dom).2.length ≤ i →
      DOMAnalyzer.getElement (DOMAnalyzer.findInteractiveElements oldCache dom).2 i =
        none) ∧
    ((DOMAnalyzer.findInteractiveElements oldCache dom).2 =
      (DOMAnalyzer.dedupByEid [] dom).filter DOMAnalyzer.isVisible) ∧
    (DOMAnalyzer.findInteractiveElements oldCache' dom =
      DOMAnalyzer.findInteractiveElements oldCache dom) := by
  have hcache : (DOMAnalyzer.findInteractiveElements oldCache dom).2 =
      (DOMAnalyzer.dedupByEid [] dom).filter DOMAnalyzer.isVisible := by
    simpa [DOMAnalyzer.findInteractiveElements] using
      DOMAnalyzer.discover_cache dom {}
  have helems : (DOMAnalyzer.findInteractiveElements oldCache dom).1 =
      DOMAnalyzer.buildElementsFrom 0
        (DOMAnalyzer.findInteractiveElements oldCache dom).2 := by
    simpa [DOMAnalyzer.findInteractiveElements] using
      DOMAnalyzer.discover_elements dom {} rfl
  refine ⟨helems, ?_, ?_, hcache, rfl⟩
  · intro i el h
    refine ⟨?_, h, ?_⟩
    · rw [helems]
      simpa using DOMAnalyzer.buildElementsFrom_get? _ i 0 el h
    · have hmem : el ∈ (DOMAnalyzer.dedupByEid [] dom).filter DOMAnalyzer.isVisible := by
        rw [← hcache]
        exact List.get?_mem h
      exact List.of_mem_filter hmem
  · intro i hle
    exact List.get?_eq_none.mpr hle

/-- Witness for C6 on the demo page (visible button, invisible anchor,
duplicate button node): the snapshot keeps exactly the visible button at
index 0, `getElement 0` returns that very node, `elements[0]` is the
record built from it, and `getElement 1` is none. -/
theorem analyzer_snapshot_indexing_witness :
    (DOMAnalyzer.findInteractiveElements [] demoDom).2 =
      [demoButton] ∧
    DOMAnalyzer.getElement
      (DOMAnalyzer.findInteractiveElements [] demoDom).2 0 =
      some demoButton ∧
    (DOMAnalyzer.findInteractiveElements [] demoDom).1.get? 0 =
      some (DOMAnalyzer.mkInteractiveElement 0 demoButton) ∧
    DOMAnalyzer.getElement
      (DOMAnalyzer.findInteractiveElements [] demoDom).2 1 = none := by
  obtain ⟨helems, h2, h3, h4, _⟩ :=
    analyzer_snapshot_indexing [] [] demoDom
  have hc : (DOMAnalyzer.findInteractiveElements [] demoDom).2 =
      [demoButton] := by
    rw [h4]; decide
  have hget : (DOMAnalyzer.findInteractiveElements [] demoDom).2.get? 0 =
      some demoButton := by
    rw [hc]; rfl
  refine ⟨hc, (h2 0 demoButton hget).2.1,
    (h2 0 demoButton hget).1, h3 1 ?_⟩
  rw [hc]; decide

/-- Helper: the retry loop repeats one deterministic computation, so with
a positive retry count it returns the single-attempt outcome, and an
exhausted loop returns the empty record. -/
theorem parseRetries_eq (response : String) :
    ∀ n, 0 < n → ResponseParser.parseRetries n response =
      match ResponseParser.attemptParse response with
      | some p => p
      | none => {} := by
  have hnone : ∀ n, ResponseParser.attemptParse response = none →
      ResponseParser.parseRetries n response = {} := by
    intro n
    induction n with
    | zero => intro _; rfl
    | succ k ih =>
        intro h
        simp [ResponseParser.parseRetries, h, ih h]
  intro n hn
  cases n with
  | zero => omega
  | succ k =>
      cases hattempt : ResponseParser.attemptParse response with
      | some p => simp [ResponseParser.parseRetries, hattempt]
      | none => simpa [hattempt] using hnone (k + 1) hattempt

/-- Counterexample to claim C9 as stated: the regex
`/\x7b[\s\S]*\x7d/` is greedy, so on text holding TWO brace-delimited
objects the matched span runs from the first opening brace to the LAST
closing brace.  Here the first brace-delimited JSON object
(`\x7b"action":"done","reasoning":"ok"\x7d`) parses and validates to one
done action, yet the parser returns the empty record with no actions,
because the extracted span is the whole two-object stretch, which is not
valid JSON. -/
theorem parseActions_first_object_cex :
    ResponseParser.parseActionsFromResponse 3
      "\x7b\"action\":\"done\",\"reasoning\":\"ok\"\x7d and \x7b\"note\":1\x7d" =
      { summary := none, actions := none } ∧
    (ResponseParser.jsonParse "\x7b\"action\":\"done\",\"reasoning\":\"ok\"\x7d").bind
      (fun j => ResponseParser.safeParseAction j) = some (WebAction.done "ok") ∧
    ResponseParser.extractJson
      "\x7b\"action\":\"done\",\"reasoning\":\"ok\"\x7d and \x7b\"note\":1\x7d" =
      some "\x7b\"action\":\"done\",\"reasoning\":\"ok\"\x7d and \x7b\"note\":1\x7d" := by
  refine ⟨?_, ?_, ?_⟩ <;> decide

/-- Claim C9 (amended): the parser locates the span from the first opening
brace (preceding the last closing brace) through the last closing brace —
the greedy regex match — parses it, and validates it against the two
recognized shapes, the action-list-with-summary shape taking priority;
if no valid match is found (the bounded retries all repeat the same
deterministic attempt, default count 3, a configured 0 falling back to 3),
it returns the empty result with no actions so the caller falls back to a
plain observation.  In particular, prose surrounding an embedded
action-list object with a wait of 500ms yields exactly that one action. -/
theorem parseActionsFromResponse_spec (maxRetries : Nat) (response : String) :
    (ResponseParser.parseActionsFromResponse maxRetries response =
      match ResponseParser.attemptParse response with
      | some p => p
      | none => {}) ∧
    (ResponseParser.parseActionsFromResponse 3
      "Sure! Here is the plan: \x7b\"actions\":[\x7b\"action\":\"wait\",\"ms\":500,\"reasoning\":\"x\"\x7d],\"summary\":\"s\"\x7d Hope that helps." =
      { summary := some "s", actions := some [WebAction.wait 500 "x"] }) := by
  constructor
  · unfold ResponseParser.parseActionsFromResponse
    apply parseRetries_eq
    by_cases h : maxRetries = 0
    · simp [h]
    · simp only [h, if_false]
      omega
  · decide
